import Mathlib

/-!
Verification development for the cross-context coordination layer of the
YouTube RAG Assistant browser extension (content script `content.js`,
coordinator `background.js`, popup `popup.js`).

The JavaScript source is shallowly embedded: JSON values are a Lean
inductive, `JSON.parse` is an executable strict parser, the streaming
assembler loop of `sendMessage` is a fold over decoded chunks, DOM and
storage effects are explicit state records, and promise-based handlers are
total functions into an `Except`/response type.
-/

/-- JavaScript JSON values.  Numbers keep their source numeral text, which
is enough structure for every payload exchanged by this extension. -/
inductive Json where
  | null
  | bool (b : Bool)
  | num (raw : String)
  | str (s : String)
  | arr (items : List Json)
  | obj (fields : List (String × Json))

/-- Property access `j[k]` on a parsed JSON value: defined on objects,
`none` (JS `undefined`) otherwise. -/
def getField : Json → String → Option Json
  | Json.obj fields, k =>
    match fields.find? (fun p => p.1 = k) with
    | some p => some p.2
    | none => none
  | _, _ => none

def lbraceChar : Char := Char.ofNat 123

def rbraceChar : Char := Char.ofNat 125

/-- Whitespace skipping as done by `JSON.parse`. -/
def skipWs : List Char → List Char
  | [] => []
  | c :: cs =>
    if c = ' ' ∨ c = '\t' ∨ c = '\n' ∨ c = '\r' then skipWs cs else c :: cs

def hexDigitVal (c : Char) : Option Nat :=
  if '0' ≤ c ∧ c ≤ '9' then some (c.toNat - 48)
  else if 'a' ≤ c ∧ c ≤ 'f' then some (c.toNat - 87)
  else if 'A' ≤ c ∧ c ≤ 'F' then some (c.toNat - 55)
  else none

/-- Body of a JSON string literal (after the opening quote), with the
escape sequences accepted by `JSON.parse`; rejects raw control chars. -/
def parseJStringAux : List Char → List Char → Option (String × List Char)
  | _, [] => none
  | acc, c :: cs =>
    if c = '"' then some (String.mk acc.reverse, cs)
    else if c = '\\' then
      match cs with
      | [] => none
      | e :: cs' =>
        if e = '"' then parseJStringAux ('"' :: acc) cs'
        else if e = '\\' then parseJStringAux ('\\' :: acc) cs'
        else if e = '/' then parseJStringAux ('/' :: acc) cs'
        else if e = 'b' then parseJStringAux (Char.ofNat 8 :: acc) cs'
        else if e = 'f' then parseJStringAux (Char.ofNat 12 :: acc) cs'
        else if e = 'n' then parseJStringAux ('\n' :: acc) cs'
        else if e = 'r' then parseJStringAux ('\r' :: acc) cs'
        else if e = 't' then parseJStringAux ('\t' :: acc) cs'
        else if e = 'u' then
          match cs' with
          | h1 :: h2 :: h3 :: h4 :: cs'' =>
            match hexDigitVal h1, hexDigitVal h2, hexDigitVal h3, hexDigitVal h4 with
            | some a, some b, some c2, some d =>
              parseJStringAux (Char.ofNat (4096 * a + 256 * b + 16 * c2 + d) :: acc) cs''
            | _, _, _, _ => none
          | _ => none
        else none
    else if c.toNat < 32 then none
    else parseJStringAux (c :: acc) cs

def spanDigits : List Char → List Char × List Char
  | [] => ([], [])
  | c :: cs =>
    if c.isDigit then
      let (d, r) := spanDigits cs
      (c :: d, r)
    else ([], c :: cs)

def parseFracPart : List Char → Option (List Char × List Char)
  | '.' :: r =>
    match spanDigits r with
    | ([], _) => none
    | (ds, rest) => some ('.' :: ds, rest)
  | s => some ([], s)

def parseExpPart : List Char → Option (List Char × List Char)
  | [] => some ([], [])
  | c :: r =>
    if c = 'e' ∨ c = 'E' then
      let (sgn, r1) :=
        match r with
        | '+' :: r' => ((['+'] : List Char), r')
        | '-' :: r' => ((['-'] : List Char), r')
        | _ => ([], r)
      match spanDigits r1 with
      | ([], _) => none
      | (ds, rest) => some (c :: (sgn ++ ds), rest)
    else some ([], c :: r)

/-- JSON number grammar (optional sign, no leading zeros, optional
fraction and exponent); keeps the numeral text. -/
def parseNumberChars (s : List Char) : Option (String × List Char) :=
  let (sgn, s1) :=
    match s with
    | '-' :: r => ((['-'] : List Char), r)
    | _ => (([] : List Char), s)
  match spanDigits s1 with
  | ([], _) => none
  | (ds, r1) =>
    if 1 < ds.length ∧ ds.head? = some '0' then none
    else
      match parseFracPart r1 with
      | none => none
      | some (fs, r2) =>
        match parseExpPart r2 with
        | none => none
        | some (es, r3) => some (String.mk (sgn ++ ds ++ fs ++ es), r3)

/-- Continuation frames of the JSON value parser: a partially parsed array
or a partially parsed object waiting for the value of `key`. -/
inductive JFrame where
  | arrF (items : List Json)
  | objF (fields : List (String × Json)) (key : String)

/-- Stack-machine JSON parser.  `pending = none` expects a value;
`pending = some v` resumes the enclosing frame with the finished value.
Every recursive call consumes at least one input character, so fuel
`length + 1` always suffices. -/
def runParse : Nat → List JFrame → Option Json → List Char → Option (Json × List Char)
  | 0, _, _, _ => none
  | Nat.succ fuel, stack, some v, s =>
    match stack with
    | [] => some (v, s)
    | JFrame.arrF items :: st =>
      match skipWs s with
      | c :: r =>
        if c = ',' then runParse fuel (JFrame.arrF (items ++ [v]) :: st) none r
        else if c = ']' then runParse fuel st (some (Json.arr (items ++ [v]))) r
        else none
      | [] => none
    | JFrame.objF fields key :: st =>
      match skipWs s with
      | c :: r =>
        if c = ',' then
          match skipWs r with
          | q :: r1 =>
            if q = '"' then
              match parseJStringAux [] r1 with
              | some (k, r2) =>
                match skipWs r2 with
                | colon :: r3 =>
                  if colon = ':' then
                    runParse fuel (JFrame.objF (fields ++ [(key, v)]) k :: st) none r3
                  else none
                | [] => none
              | none => none
            else none
          | [] => none
        else if c = rbraceChar then
          runParse fuel st (some (Json.obj (fields ++ [(key, v)]))) r
        else none
      | [] => none
  | Nat.succ fuel, stack, none, s =>
    match skipWs s with
    | [] => none
    | c :: r =>
      if c = '"' then
        match parseJStringAux [] r with
        | some (lit, r1) => runParse fuel stack (some (Json.str lit)) r1
        | none => none
      else if c = lbraceChar then
        match skipWs r with
        | q :: r1 =>
          if q = rbraceChar then runParse fuel stack (some (Json.obj [])) r1
          else if q = '"' then
            match parseJStringAux [] r1 with
            | some (k, r2) =>
              match skipWs r2 with
              | colon :: r3 =>
                if colon = ':' then runParse fuel (JFrame.objF [] k :: stack) none r3
                else none
              | [] => none
            | none => none
          else none
        | [] => none
      else if c = '[' then
        match skipWs r with
        | q :: r1 =>
          if q = ']' then runParse fuel stack (some (Json.arr [])) r1
          else runParse fuel (JFrame.arrF [] :: stack) none (q :: r1)
        | [] => none
      else if c = 't' then
        match r with
        | 'r' :: 'u' :: 'e' :: r1 => runParse fuel stack (some (Json.bool true)) r1
        | _ => none
      else if c = 'f' then
        match r with
        | 'a' :: 'l' :: 's' :: 'e' :: r1 => runParse fuel stack (some (Json.bool false)) r1
        | _ => none
      else if c = 'n' then
        match r with
        | 'u' :: 'l' :: 'l' :: r1 => runParse fuel stack (some Json.null) r1
        | _ => none
      else
        match parseNumberChars (c :: r) with
        | some (raw, r1) => runParse fuel stack (some (Json.num raw)) r1
        | none => none

/-- `JSON.parse` on a character sequence: one JSON value, whole input
consumed up to trailing whitespace. -/
def parseJsonChars (s : List Char) : Option Json :=
  match runParse (s.length + 1) [] none s with
  | some (v, rest) => if (skipWs rest).isEmpty then some v else none
  | none => none

example : parseJsonChars "\x7b\"type\": \"token\", \"content\": \"AB\"\x7d".toList =
    some (Json.obj [("type", Json.str "token"), ("content", Json.str "AB")]) := rfl

example : parseJsonChars "\x7b\"type\": \"to".toList = none := rfl

example : parseJsonChars "\x7b\"a\": [1, true, null]\x7d".toList =
    some (Json.obj [("a", Json.arr [Json.num "1", Json.bool true, Json.null])]) := rfl

/-! ## Streaming response assembler (content script `sendMessage`) -/

/-- Rendered content of the streaming placeholder element created by
`createStreamingMessage`: typing indicator, partial answer from
`updateStreamingMessage`, or final answer plus rendered sources from
`finalizeStreamingMessage`. -/
inductive MsgContent where
  | loading
  | streaming (text : String)
  | finalized (text : String) (sources : List Json)

/-- Per-turn assembler state: the `fullAnswer` and `sources` locals of
`sendMessage`, the placeholder element addressed by `messageId`
(`none` once removed from the document), and assistant messages appended
by `addAssistantMessage` on `error` events. -/
structure AssemblerSt where
  fullAnswer : String
  sources : Option Json
  placeholder : Option MsgContent
  errorMessages : List String

/-- State at the start of a streaming turn: `fullAnswer = ''`,
`sources = []`, placeholder freshly created by `createStreamingMessage`. -/
def freshTurn : AssemblerSt :=
  { fullAnswer := "", sources := some (Json.arr []), placeholder := some MsgContent.loading,
    errorMessages := [] }

/-- JavaScript string coercion as used by `fullAnswer += data.content`.
Array elements are joined one level deep, which is exact for the flat
payloads this protocol carries. -/
def jsToString : Option Json → String
  | none => "undefined"
  | some Json.null => "null"
  | some (Json.bool true) => "true"
  | some (Json.bool false) => "false"
  | some (Json.num raw) => raw
  | some (Json.str s) => s
  | some (Json.arr xs) =>
      String.intercalate ","
        (xs.map fun x =>
          match x with
          | Json.str s => s
          | Json.num raw => raw
          | Json.bool true => "true"
          | Json.bool false => "false"
          | _ => "")
  | some (Json.obj _) => "[object Object]"

/-- Sources list rendered by `finalizeStreamingMessage`; a missing or
empty list renders no sources section. -/
def renderSources : Option Json → List Json
  | some (Json.arr xs) => xs
  | _ => []

/-- `updateStreamingMessage`: a no-op when `document.getElementById`
no longer finds the placeholder. -/
def updateStreamingMessage (st : AssemblerSt) (text : String) : AssemblerSt :=
  match st.placeholder with
  | none => st
  | some _ => { st with placeholder := some (MsgContent.streaming text) }

/-- `finalizeStreamingMessage`: rewrites the placeholder content with the
final text and the rendered sources; no-op if the element is gone. -/
def finalizeStreamingMessage (st : AssemblerSt) (text : String) (srcs : Option Json) :
    AssemblerSt :=
  match st.placeholder with
  | none => st
  | some _ => { st with placeholder := some (MsgContent.finalized text (renderSources srcs)) }

/-- `removeStreamingMessage`: deletes the placeholder element. -/
def removeStreamingMessage (st : AssemblerSt) : AssemblerSt :=
  { st with placeholder := none }

/-- `addAssistantMessage` for the inline error message shown on an
`error` event. -/
def addAssistantMessage (st : AssemblerSt) (m : String) : AssemblerSt :=
  { st with errorMessages := st.errorMessages ++ [m] }

/-- The `data.type` discriminant, a string or nothing; the dispatch in
`sendMessage` compares it with `===` so non-strings match no branch. -/
def eventType (d : Json) : Option String :=
  match getField d "type" with
  | some (Json.str t) => some t
  | _ => none

/-- The event dispatch of `sendMessage` on one parsed `data:` payload:
`token` appends to `fullAnswer` and updates the placeholder, `sources`
overwrites the buffered list, `done` finalizes, `error` removes the
placeholder and adds an inline error message. -/
def applyData (st : AssemblerSt) (d : Json) : AssemblerSt :=
  match eventType d with
  | some t =>
    if t = "token" then
      let fa := st.fullAnswer ++ jsToString (getField d "content")
      updateStreamingMessage { st with fullAnswer := fa } fa
    else if t = "sources" then { st with sources := getField d "content" }
    else if t = "done" then finalizeStreamingMessage st st.fullAnswer st.sources
    else if t = "error" then
      addAssistantMessage (removeStreamingMessage st)
        ("Error: " ++ jsToString (getField d "content"))
    else st
  | none => st

/-- The characters of the `'data: '` marker tested by
`line.startsWith('data: ')`. -/
def dataMarker : List Char := ['d', 'a', 't', 'a', ':', ' ']

/-- Handling of one line of a decoded chunk: parse after the marker and
dispatch; lines without the marker or with unparsable JSON are skipped. -/
def processLine (st : AssemblerSt) (line : List Char) : AssemblerSt :=
  if dataMarker.isPrefixOf line then
    match parseJsonChars (line.drop 6) with
    | some d => applyData st d
    | none => st
  else st

/-- `chunk.split('\n')` as in `sendMessage`: performed per chunk, with no
carry-over of a partial trailing line to the next chunk. -/
def splitLines : List Char → List (List Char)
  | [] => [[]]
  | c :: cs =>
    if c = '\n' then [] :: splitLines cs
    else
      match splitLines cs with
      | [] => [[c]]
      | l :: ls => (c :: l) :: ls

/-- Handling of one decoded chunk: split on newline, then process each
resulting line. -/
def processChunk (st : AssemblerSt) (chunk : List Char) : AssemblerSt :=
  (splitLines chunk).foldl processLine st

/-- The reader loop of `sendMessage` over the decoded chunks of the
response body, starting from a fresh streaming turn. -/
def assembleStream (chunks : List (List Char)) : AssemblerSt :=
  chunks.foldl processChunk freshTurn

example :
    (assembleStream ["data: \x7b\"type\": \"token\", \"content\": \"AB\"\x7d\n".toList]).fullAnswer
      = "AB" := rfl

/-! ### Chunk-boundary analysis of the assembler -/

/-- Character-level view of per-chunk processing: threads the state and
the current (unterminated) line accumulator through one chunk. -/
def runChars : AssemblerSt × List Char → List Char → AssemblerSt × List Char
  | p, [] => p
  | (st, acc), c :: cs =>
    if c = '\n' then runChars (processLine st acc, []) cs
    else runChars (st, acc ++ [c]) cs

/-- Processing of the final (possibly empty) line fragment of a chunk. -/
def flushLine (p : AssemblerSt × List Char) : AssemblerSt := processLine p.1 p.2

def headCons (acc : List Char) : List (List Char) → List (List Char)
  | [] => [acc]
  | l :: ls => (acc ++ l) :: ls

theorem splitLines_ne_nil (cs : List Char) : splitLines cs ≠ [] := by
  cases cs with
  | nil => simp [splitLines]
  | cons c cs =>
    simp only [splitLines]
    split
    · simp
    · cases h : splitLines cs <;> simp

theorem processLine_nil (st : AssemblerSt) : processLine st [] = st := by
  have h : dataMarker.isPrefixOf ([] : List Char) = false := rfl
  simp [processLine, h]

theorem foldl_splitLines (cs : List Char) :
    ∀ (st : AssemblerSt) (acc : List Char),
      (headCons acc (splitLines cs)).foldl processLine st = flushLine (runChars (st, acc) cs) := by
  induction cs with
  | nil =>
    intro st acc
    simp [splitLines, headCons, runChars, flushLine]
  | cons c cs ih =>
    intro st acc
    by_cases hc : c = '\n'
    · subst hc
      have hsplit : splitLines ('\n' :: cs) = [] :: splitLines cs := by
        simp [splitLines]
      rw [hsplit]
      cases hls : splitLines cs with
      | nil => exact absurd hls (splitLines_ne_nil cs)
      | cons l ls =>
        have hrun : runChars (st, acc) ('\n' :: cs) = runChars (processLine st acc, []) cs := by
          simp [runChars]
        rw [hrun]
        have := ih (processLine st acc) []
        rw [hls] at this
        simpa [headCons] using this
    · cases hls : splitLines cs with
      | nil => exact absurd hls (splitLines_ne_nil cs)
      | cons l ls =>
        have hsplit : splitLines (c :: cs) = (c :: l) :: ls := by
          simp [splitLines, hc, hls]
        rw [hsplit]
        have hrun : runChars (st, acc) (c :: cs) = runChars (st, acc ++ [c]) cs := by
          simp [runChars, hc]
        rw [hrun]
        have := ih st (acc ++ [c])
        rw [hls] at this
        simpa [headCons, List.append_assoc] using this

theorem processChunk_eq (st : AssemblerSt) (c : List Char) :
    processChunk st c = flushLine (runChars (st, []) c) := by
  have h := foldl_splitLines c st []
  cases hls : splitLines c with
  | nil => exact absurd hls (splitLines_ne_nil c)
  | cons l ls =>
    rw [hls] at h
    simpa [processChunk, headCons, hls] using h

theorem runChars_append (a b : List Char) :
    ∀ p : AssemblerSt × List Char, runChars p (a ++ b) = runChars (runChars p a) b := by
  induction a with
  | nil => intro p; simp [runChars]
  | cons c a ih =>
    intro p
    obtain ⟨st, acc⟩ := p
    by_cases hc : c = '\n' <;> simp [runChars, hc, ih]

theorem runChars_terminated (p : AssemblerSt × List Char) (a : List Char)
    (h : a.getLast? = some '\n') :
    runChars p a = (flushLine (runChars p a.dropLast), []) := by
  have hdecomp : a.dropLast ++ ['\n'] = a :=
    List.dropLast_append_getLast? '\n' (Option.mem_def.mpr h)
  conv_lhs => rw [← hdecomp]
  rw [runChars_append]
  obtain ⟨st, acc⟩ := runChars p a.dropLast
  simp [runChars, flushLine]

theorem flushLine_empty_acc (st : AssemblerSt) : flushLine (st, []) = st := by
  simp [flushLine, processLine_nil]

theorem assemble_aligned (cs : List (List Char)) :
    ∀ st : AssemblerSt, (∀ c ∈ cs, c.getLast? = some '\n') →
      cs.foldl processChunk st = processChunk st cs.flatten := by
  induction cs with
  | nil =>
    intro st _
    show st = processChunk st []
    rw [processChunk_eq]
    simp [runChars, flushLine_empty_acc]
  | cons c cs ih =>
    intro st h
    have hc := h c (List.mem_cons_self c cs)
    have hcs : ∀ x ∈ cs, x.getLast? = some '\n' := fun x hx => h x (List.mem_cons_of_mem c hx)
    have hchunk : processChunk st c = flushLine (runChars (st, []) c.dropLast) := by
      rw [processChunk_eq, runChars_terminated _ _ hc, flushLine_empty_acc]
    rw [List.foldl_cons, ih (processChunk st c) hcs, List.flatten_cons,
      processChunk_eq st (c ++ cs.flatten), runChars_append, runChars_terminated _ _ hc,
      hchunk, ← processChunk_eq]
    exact processChunk_eq _ _

/-! ### Concrete stream fragments for the chunking analysis -/

/-- A complete `data:` line carrying `token "AB"`. -/
def c1FullLine : List Char :=
  "data: \x7b\"type\": \"token\", \"content\": \"AB\"\x7d\n".toList

/-- First half of `c1FullLine`, cut in the middle of the JSON payload. -/
def c1CutA : List Char := "data: \x7b\"type\": \"to".toList

/-- Second half of `c1FullLine`. -/
def c1CutB : List Char := "ken\", \"content\": \"AB\"\x7d\n".toList

/-- C1: the claim that the assembled answer is invariant under every chunk
split is false: the loop in `sendMessage` splits each decoded chunk on
newline separately and keeps no partial-line carry, so a `data:` line cut
across two chunks is dropped (both fragments fail to parse), while the
same bytes in one chunk yield the token.  Concretely, one chunk gives the
answer `"AB"`, the two-chunk split of the same bytes gives `""`. -/
theorem c1_counterexample :
    c1CutA ++ c1CutB = c1FullLine ∧
    (assembleStream [c1FullLine]).fullAnswer = "AB" ∧
    (assembleStream [c1CutA, c1CutB]).fullAnswer = "" ∧
    (assembleStream [c1CutA, c1CutB]).fullAnswer ≠ (assembleStream [c1FullLine]).fullAnswer := by
  refine ⟨rfl, rfl, rfl, ?_⟩
  have h1 : (assembleStream [c1CutA, c1CutB]).fullAnswer = "" := rfl
  have h2 : (assembleStream [c1FullLine]).fullAnswer = "AB" := rfl
  rw [h1, h2]
  decide

/-- C1 amended: chunking-invariance holds for newline-aligned splits.
If every chunk of both splits ends with a newline, the assembler reaches
the same final state (same accumulated answer, same citation list, same
rendered placeholder) regardless of how the stream was cut. -/
theorem c1_amended_aligned_invariance (cs₁ cs₂ : List (List Char))
    (h₁ : ∀ c ∈ cs₁, c.getLast? = some '\n')
    (h₂ : ∀ c ∈ cs₂, c.getLast? = some '\n')
    (hsame : cs₁.flatten = cs₂.flatten) :
    assembleStream cs₁ = assembleStream cs₂ := by
  unfold assembleStream
  rw [assemble_aligned cs₁ freshTurn h₁, assemble_aligned cs₂ freshTurn h₂, hsame]

/-- A complete `data:` line carrying `token "A"`. -/
def c1Line1 : List Char :=
  "data: \x7b\"type\": \"token\", \"content\": \"A\"\x7d\n".toList

/-- A complete `data:` line carrying `token "B"`. -/
def c1Line2 : List Char :=
  "data: \x7b\"type\": \"token\", \"content\": \"B\"\x7d\n".toList

theorem c1_amended_aligned_invariance_witness :
    (∀ c ∈ [c1Line1 ++ c1Line2], c.getLast? = some '\n') ∧
    (∀ c ∈ [c1Line1, c1Line2], c.getLast? = some '\n') ∧
    ([c1Line1 ++ c1Line2] : List (List Char)).flatten = ([c1Line1, c1Line2] : List (List Char)).flatten ∧
    assembleStream [c1Line1 ++ c1Line2] = assembleStream [c1Line1, c1Line2] := by
  refine ⟨by decide, by decide, by decide,
    c1_amended_aligned_invariance [c1Line1 ++ c1Line2] [c1Line1, c1Line2]
      (by decide) (by decide) (by decide)⟩

/-! ### Typed stream events (backend `data:` payload shapes) -/

/-- A `token` event payload as emitted on the `/ask_question_stream`
event stream. -/
def tokenEv (s : String) : Json :=
  Json.obj [("type", Json.str "token"), ("content", Json.str s)]

/-- A `sources` event payload. -/
def sourcesEv (xs : List Json) : Json :=
  Json.obj [("type", Json.str "sources"), ("content", Json.arr xs)]

/-- A `done` event payload. -/
def doneEv : Json :=
  Json.obj [("type", Json.str "done"), ("content", Json.str "")]

/-- An `error` event payload. -/
def errorEv (m : String) : Json :=
  Json.obj [("type", Json.str "error"), ("content", Json.str m)]

theorem applyData_tokenEv (st : AssemblerSt) (s : String) :
    applyData st (tokenEv s) =
      updateStreamingMessage { st with fullAnswer := st.fullAnswer ++ s } (st.fullAnswer ++ s) := rfl

theorem applyData_sourcesEv (st : AssemblerSt) (xs : List Json) :
    applyData st (sourcesEv xs) = { st with sources := some (Json.arr xs) } := rfl

theorem applyData_doneEv (st : AssemblerSt) :
    applyData st doneEv = finalizeStreamingMessage st st.fullAnswer st.sources := rfl

theorem applyData_errorEv (st : AssemblerSt) (m : String) :
    applyData st (errorEv m) =
      addAssistantMessage (removeStreamingMessage st) ("Error: " ++ m) := rfl

/-- C2: in the event order of the claim — two tokens, then `sources`,
then `done` — the placeholder passes through the partial answers and
finalizes with the answer plus the given sources; a `sources` event never
changes the visible placeholder or the accumulated answer by itself. -/
theorem c2_sources_buffered_and_ordering (a b : String) (S : List Json) (st : AssemblerSt) :
    (applyData st (sourcesEv S)).placeholder = st.placeholder ∧
    (applyData st (sourcesEv S)).fullAnswer = st.fullAnswer ∧
    ((applyData freshTurn (tokenEv a)).placeholder = some (MsgContent.streaming a) ∧
     (applyData (applyData freshTurn (tokenEv a)) (tokenEv b)).placeholder
        = some (MsgContent.streaming (a ++ b)) ∧
     (applyData (applyData (applyData freshTurn (tokenEv a)) (tokenEv b)) (sourcesEv S)).placeholder
        = some (MsgContent.streaming (a ++ b)) ∧
     (applyData (applyData (applyData (applyData freshTurn (tokenEv a)) (tokenEv b)) (sourcesEv S))
        doneEv).placeholder = some (MsgContent.finalized (a ++ b) S)) := by
  refine ⟨rfl, rfl, rfl, ?_, ?_, ?_⟩ <;>
    simp [applyData_tokenEv, applyData_sourcesEv, applyData_doneEv, freshTurn,
      updateStreamingMessage, finalizeStreamingMessage, renderSources]

/-- The sources payload used in the order-dependence counterexamples. -/
def lateSources : List Json := [Json.obj [("text", Json.str "a citation")]]

/-- C2: the order-independence half of the claim is false: when the
`sources` event arrives after `done`, `sendMessage` has already called
`finalizeStreamingMessage` with the still-empty `sources` local, so the
finalized message shows no citations; the late payload only overwrites a
local variable and is never rendered. -/
theorem c2_counterexample :
    (List.foldl applyData freshTurn [tokenEv "A", doneEv, sourcesEv lateSources]).placeholder
        = some (MsgContent.finalized "A" []) ∧
    (List.foldl applyData freshTurn [tokenEv "A", doneEv, sourcesEv lateSources]).placeholder
        ≠ some (MsgContent.finalized "A" lateSources) := by
  refine ⟨rfl, ?_⟩
  have h : (List.foldl applyData freshTurn [tokenEv "A", doneEv, sourcesEv lateSources]).placeholder
      = some (MsgContent.finalized "A" []) := rfl
  rw [h]
  simp [lateSources]

/-- C3: finalization by `done` is not idempotent: `finalizeStreamingMessage`
rewrites the placeholder content but leaves the element (and its id) in the
document, so a `token` event arriving after `done` finds the element via
`getElementById` and rewrites it back to a streaming partial answer. -/
theorem c3_counterexample :
    (List.foldl applyData freshTurn [tokenEv "A", doneEv]).placeholder
        = some (MsgContent.finalized "A" []) ∧
    (applyData (List.foldl applyData freshTurn [tokenEv "A", doneEv]) (tokenEv "X")).placeholder
        = some (MsgContent.streaming "AX") ∧
    (applyData (List.foldl applyData freshTurn [tokenEv "A", doneEv]) (tokenEv "X")).placeholder
        ≠ (List.foldl applyData freshTurn [tokenEv "A", doneEv]).placeholder := by
  refine ⟨rfl, rfl, ?_⟩
  have h1 : (applyData (List.foldl applyData freshTurn [tokenEv "A", doneEv]) (tokenEv "X")).placeholder
      = some (MsgContent.streaming "AX") := rfl
  have h2 : (List.foldl applyData freshTurn [tokenEv "A", doneEv]).placeholder
      = some (MsgContent.finalized "A" []) := rfl
  rw [h1, h2]
  simp

theorem applyData_placeholder_none (st : AssemblerSt) (d : Json)
    (h : st.placeholder = none) : (applyData st d).placeholder = none := by
  unfold applyData
  split
  · split
    · simp [updateStreamingMessage, h]
    · split
      · simpa using h
      · split
        · simp [finalizeStreamingMessage, h]
        · split
          · simp [addAssistantMessage, removeStreamingMessage]
          · exact h
  · exact h

theorem foldl_applyData_placeholder_none (evs : List Json) :
    ∀ st : AssemblerSt, st.placeholder = none →
      (List.foldl applyData st evs).placeholder = none := by
  induction evs with
  | nil => intro st h; exact h
  | cons d evs ih =>
    intro st h
    exact ih (applyData st d) (applyData_placeholder_none st d h)

/-- C3 amended: finalization by an `error` event is permanent — it removes
the placeholder element, and every later event of the turn (token, sources,
done, or error) leaves the removed placeholder unchanged, because the
element lookup by id fails.  (The `done` path, by contrast, keeps the
element alive: see the counterexample.) -/
theorem c3_amended_error_is_absorbing (st : AssemblerSt) (m : String) (evs : List Json) :
    (applyData st (errorEv m)).placeholder = none ∧
    (∀ st' : AssemblerSt, st'.placeholder = none →
      (List.foldl applyData st' evs).placeholder = none) ∧
    (List.foldl applyData (applyData st (errorEv m)) evs).placeholder = none := by
  refine ⟨rfl, fun st' h => foldl_applyData_placeholder_none evs st' h, ?_⟩
  exact foldl_applyData_placeholder_none evs _ rfl

theorem c3_amended_error_is_absorbing_witness :
    (applyData freshTurn (errorEv "backend failure")).placeholder = none ∧
    (List.foldl applyData (applyData freshTurn (errorEv "backend failure"))
      [tokenEv "X", sourcesEv lateSources, doneEv]).placeholder = none := by
  refine ⟨(c3_amended_error_is_absorbing freshTurn "backend failure" []).1, ?_⟩
  exact (c3_amended_error_is_absorbing freshTurn "backend failure"
    [tokenEv "X", sourcesEv lateSources, doneEv]).2.2

/-! ## Content-script lifecycle (content.js guard, background.js injection) -/

/-- Page-local state of one tab's execution context: the two window flags,
the number of `rag-chat-panel` root nodes in the document, and the number
of registered `chrome.runtime.onMessage` handler sets. -/
structure PageState where
  loadedFlag : Bool
  initFlag : Bool
  panels : Nat
  handlerSets : Nat
deriving DecidableEq

/-- A tab before any script has run in it. -/
def initPage : PageState :=
  { loadedFlag := false, initFlag := false, panels := 0, handlerSets := 0 }

/-- `createChatPanel`: removes any existing `rag-chat-panel` element, then
appends exactly one fresh panel to the document body. -/
def createChatPanel (st : PageState) : PageState :=
  { st with panels := 1 }

/-- One execution of `content.js` in the page: the top-level
`window.YouTubeRAGAssistantLoaded` guard makes a second execution a no-op;
a first execution sets the flag, builds the panel, and registers the
message listener set.  `window.YouTubeRAGAssistantInitialized` is never
assigned anywhere in the repository. -/
def runContentScript (st : PageState) : PageState :=
  if st.loadedFlag then st
  else
    let st1 := { st with loadedFlag := true }
    let st2 := createChatPanel st1
    { st2 with handlerSets := st2.handlerSets + 1 }

/-- `handleYouTubePageLoad`: probes the tab for an existing
`rag-chat-panel` element and, when absent, executes `content.js` (then
inserts the stylesheet, which has no modelled state). -/
def handleYouTubePageLoad (st : PageState) : PageState :=
  if st.panels > 0 then st else runContentScript st

/-- `ensureContentScriptInjected`: probes
`window.YouTubeRAGAssistantInitialized` and runs `handleYouTubePageLoad`
when the probe reports false. -/
def ensureContentScriptInjected (st : PageState) : PageState :=
  if st.initFlag then st else handleYouTubePageLoad st

/-- The settings-menu `Close Panel` handler, which removes the panel node. -/
def closeChatPanel (st : PageState) : PageState :=
  { st with panels := 0 }

/-- Page states reachable by the operations the repository can perform in
a tab's execution context, starting from a fresh page. -/
inductive ReachablePage : PageState → Prop
  | init : ReachablePage initPage
  | script {st} : ReachablePage st → ReachablePage (runContentScript st)
  | panel {st} : ReachablePage st → ReachablePage (createChatPanel st)
  | load {st} : ReachablePage st → ReachablePage (handleYouTubePageLoad st)
  | ensure {st} : ReachablePage st → ReachablePage (ensureContentScriptInjected st)
  | close {st} : ReachablePage st → ReachablePage (closeChatPanel st)

/-- C7: injection is idempotent.  Running the coordinator's injection
procedure twice in a row on a fresh tab equals running it once and leaves
exactly one `rag-chat-panel` root and exactly one registered handler set;
the page-local `YouTubeRAGAssistantLoaded` guard makes a repeated script
execution a no-op in any state, and `createChatPanel` always removes a
pre-existing root before creating the fresh one. -/
theorem c7_injection_idempotent :
    handleYouTubePageLoad (handleYouTubePageLoad initPage) = handleYouTubePageLoad initPage ∧
    (handleYouTubePageLoad initPage).panels = 1 ∧
    (handleYouTubePageLoad initPage).handlerSets = 1 ∧
    (∀ st : PageState, runContentScript (runContentScript st) = runContentScript st) ∧
    (∀ st : PageState, (createChatPanel st).panels = 1) := by
  refine ⟨rfl, rfl, rfl, ?_, fun st => rfl⟩
  intro st
  by_cases h : st.loadedFlag
  · simp [runContentScript, h]
  · simp [runContentScript, createChatPanel, h]

theorem reachable_initFlag_false (st : PageState) (h : ReachablePage st) :
    st.initFlag = false := by
  induction h with
  | init => rfl
  | script h ih =>
    unfold runContentScript
    split
    · exact ih
    · simpa [createChatPanel] using ih
  | panel h ih => simpa [createChatPanel] using ih
  | load h ih =>
    unfold handleYouTubePageLoad
    split
    · exact ih
    · unfold runContentScript
      split
      · exact ih
      · simpa [createChatPanel] using ih
  | ensure h ih =>
    unfold ensureContentScriptInjected handleYouTubePageLoad
    split
    · exact ih
    · split
      · exact ih
      · unfold runContentScript
        split
        · exact ih
        · simpa [createChatPanel] using ih
  | close h ih => simpa [closeChatPanel] using ih

/-- C10: `ensureContentScriptInjected` probes
`window.YouTubeRAGAssistantInitialized`, but every script in the
repository only ever sets `window.YouTubeRAGAssistantLoaded`; hence in
every reachable page state the probe reports false, the already-initialized
skip branch is dead, and the probe is always followed by an invocation of
`handleYouTubePageLoad`. -/
theorem c10_initialized_probe_always_false (st : PageState) (h : ReachablePage st) :
    st.initFlag = false ∧ ensureContentScriptInjected st = handleYouTubePageLoad st := by
  have hflag := reachable_initFlag_false st h
  exact ⟨hflag, by simp [ensureContentScriptInjected, hflag]⟩

theorem c10_initialized_probe_always_false_witness :
    initPage.initFlag = false ∧
    ensureContentScriptInjected initPage = handleYouTubePageLoad initPage :=
  c10_initialized_probe_always_false initPage ReachablePage.init

/-! ## Delivery retry protocol of `toggleChatPanel` (background.js) -/

/-- Environment for message delivery to a tab: whether the n-th
`chrome.tabs.sendMessage` attempt of this interaction finds a live
listener (otherwise `chrome.runtime.lastError` is set in its callback). -/
structure DeliveryEnv where
  deliverySucceeds : Nat → Bool

/-- Observable effects of one `toggleChatPanel` interaction. -/
structure ToggleTrace where
  injectionCalls : Nat
  sendAttempts : Nat
  delivered : Bool
  fatalLogged : Bool
deriving DecidableEq

/-- `toggleChatPanel`: first awaits `ensureContentScriptInjected`, then
sends `togglePanel` to the tab; if the callback reports no listener it runs
`handleYouTubePageLoad` once more and retries the send once after the fixed
500 ms delay; a second failure is only logged via `console.error`. -/
def toggleChatPanel (env : DeliveryEnv) (pg : PageState) : PageState × ToggleTrace :=
  let ensureCalls := if pg.initFlag then 0 else 1
  let pg1 := ensureContentScriptInjected pg
  if env.deliverySucceeds 0 then
    (pg1, { injectionCalls := ensureCalls, sendAttempts := 1, delivered := true,
            fatalLogged := false })
  else
    let pg2 := handleYouTubePageLoad pg1
    if env.deliverySucceeds 1 then
      (pg2, { injectionCalls := ensureCalls + 1, sendAttempts := 2, delivered := true,
              fatalLogged := false })
    else
      (pg2, { injectionCalls := ensureCalls + 1, sendAttempts := 2, delivered := false,
              fatalLogged := true })

/-- The `togglePanel` arm of the coordinator's `handleMessage`: with a
target tab it fires `toggleChatPanel` (without awaiting it) and responds
`{success: true}` immediately; with no resolvable tab it responds
`{success: false, error: 'No active tab found'}`. -/
def handleTogglePanelRequest (env : DeliveryEnv) (pg : PageState) (targetTab : Option Nat) :
    Json × PageState × ToggleTrace :=
  match targetTab with
  | some _ =>
    let (pg', tr) := toggleChatPanel env pg
    (Json.obj [("success", Json.bool true)], pg', tr)
  | none =>
    (Json.obj [("success", Json.bool false), ("error", Json.str "No active tab found")], pg,
      { injectionCalls := 0, sendAttempts := 0, delivered := false, fatalLogged := false })

/-- A tab whose listener never answers any delivery attempt. -/
def deadTabEnv : DeliveryEnv := { deliverySucceeds := fun _ => false }

/-- C4: the surfacing half of the claim is false.  When both the original
send and the single retry fail, `toggleChatPanel` only logs the fatal
failure; the caller was already answered with `{success: true}` before the
first delivery attempt resolved, so no error response ever reaches it. -/
theorem c4_counterexample :
    (handleTogglePanelRequest deadTabEnv initPage (some 1)).1
        = Json.obj [("success", Json.bool true)] ∧
    (handleTogglePanelRequest deadTabEnv initPage (some 1)).2.2.delivered = false ∧
    (handleTogglePanelRequest deadTabEnv initPage (some 1)).2.2.fatalLogged = true ∧
    getField (handleTogglePanelRequest deadTabEnv initPage (some 1)).1 "error" = none := by
  exact ⟨rfl, rfl, rfl, rfl⟩

/-- C4 amended: the retry budget of the claim holds — a failed first
delivery triggers exactly one further injection-procedure call and exactly
one retry, and nothing after a failed retry — but a persisting failure is
only logged; the caller's promise is resolved with `{success: true}`
regardless of delivery outcome, not with an error response. -/
theorem c4_amended_bounded_retry (env : DeliveryEnv) (pg : PageState) (t : Nat)
    (h : env.deliverySucceeds 0 = false) :
    (handleTogglePanelRequest env pg (some t)).1 = Json.obj [("success", Json.bool true)] ∧
    (handleTogglePanelRequest env pg (some t)).2.2.sendAttempts = 2 ∧
    (handleTogglePanelRequest env pg (some t)).2.2.injectionCalls
        = (if pg.initFlag then 0 else 1) + 1 ∧
    (env.deliverySucceeds 1 = false →
      (handleTogglePanelRequest env pg (some t)).2.2.fatalLogged = true ∧
      (handleTogglePanelRequest env pg (some t)).1 = Json.obj [("success", Json.bool true)]) := by
  by_cases h1 : env.deliverySucceeds 1
  · refine ⟨?_, ?_, ?_, fun h2 => absurd h1 (by simp [h2])⟩ <;>
      simp [handleTogglePanelRequest, toggleChatPanel, h, h1]
  · simp only [Bool.not_eq_true] at h1
    refine ⟨?_, ?_, ?_, fun _ => ⟨?_, ?_⟩⟩ <;>
      simp [handleTogglePanelRequest, toggleChatPanel, h, h1]

theorem c4_amended_bounded_retry_witness :
    deadTabEnv.deliverySucceeds 0 = false ∧
    (handleTogglePanelRequest deadTabEnv initPage (some 1)).1
        = Json.obj [("success", Json.bool true)] ∧
    (handleTogglePanelRequest deadTabEnv initPage (some 1)).2.2.sendAttempts = 2 ∧
    (handleTogglePanelRequest deadTabEnv initPage (some 1)).2.2.fatalLogged = true := by
  have h := c4_amended_bounded_retry deadTabEnv initPage 1 rfl
  exact ⟨rfl, h.1, h.2.1, (h.2.2.2 rfl).1⟩

/-! ## Message router (background.js `handleMessage`) -/

/-- Outcomes of the awaited handler calls inside `handleMessage`, one per
action; a `.error` value models the awaited promise rejecting, which the
dispatch boundary's try/catch converts to an error envelope.  `togglePanel`
resolves its response locally (its failures are caught inside the arm), so
it is modelled by the response it produces. -/
structure RouterEnv where
  checkBackendConnection : Except String Bool
  processVideo : Except String Json
  askQuestion : Except String Json
  getVideoInfo : Except String Json
  togglePanel : Json
  getSettings : Except String Json
  updateSettings : Except String Unit
  getConversationHistory : Except String Json
  clearConversationHistory : Except String Unit

/-- The action names recognised by the coordinator's dispatch switch. -/
def knownActions : List String :=
  ["checkBackendConnection", "processVideo", "askQuestion", "getVideoInfo", "togglePanel",
   "getSettings", "updateSettings", "getConversationHistory", "clearConversationHistory"]

/-- The switch inside `handleMessage`, before the surrounding try/catch:
each arm awaits its handler and builds the response it passes to
`sendResponse`; the default arm answers `{error: 'Unknown action'}`. -/
def dispatchMessage (env : RouterEnv) (action : String) : Except String Json :=
  if action = "checkBackendConnection" then
    match env.checkBackendConnection with
    | Except.ok b => Except.ok (Json.obj [("connected", Json.bool b)])
    | Except.error m => Except.error m
  else if action = "processVideo" then env.processVideo
  else if action = "askQuestion" then env.askQuestion
  else if action = "getVideoInfo" then env.getVideoInfo
  else if action = "togglePanel" then Except.ok env.togglePanel
  else if action = "getSettings" then env.getSettings
  else if action = "updateSettings" then
    match env.updateSettings with
    | Except.ok _ => Except.ok (Json.obj [("success", Json.bool true)])
    | Except.error m => Except.error m
  else if action = "getConversationHistory" then env.getConversationHistory
  else if action = "clearConversationHistory" then
    match env.clearConversationHistory with
    | Except.ok _ => Except.ok (Json.obj [("success", Json.bool true)])
    | Except.error m => Except.error m
  else Except.ok (Json.obj [("error", Json.str "Unknown action")])

/-- `handleMessage`: the switch under its try/catch boundary.  Every
envelope yields exactly one response — a thrown/rejected handler is caught
and converted to `{error: <message>}`. -/
def handleMessage (env : RouterEnv) (action : String) : Json :=
  match dispatchMessage env action with
  | Except.ok r => r
  | Except.error m => Json.obj [("error", Json.str m)]

/-- C5: an unrecognized action is answered with the typed envelope
`{error: 'Unknown action'}` rather than a thrown exception, and a handler
that throws for any of the awaited actions is caught at the dispatch
boundary and answered with `{error: <message>}`; `handleMessage` is a
total function, so every envelope receives exactly one response. -/
theorem c5_unknown_action_and_catch (env : RouterEnv) (action : String) :
    (action ∉ knownActions →
      handleMessage env action = Json.obj [("error", Json.str "Unknown action")]) ∧
    (∀ m, env.checkBackendConnection = Except.error m →
      handleMessage env "checkBackendConnection" = Json.obj [("error", Json.str m)]) ∧
    (∀ m, env.processVideo = Except.error m →
      handleMessage env "processVideo" = Json.obj [("error", Json.str m)]) ∧
    (∀ m, env.askQuestion = Except.error m →
      handleMessage env "askQuestion" = Json.obj [("error", Json.str m)]) ∧
    (∀ m, env.getVideoInfo = Except.error m →
      handleMessage env "getVideoInfo" = Json.obj [("error", Json.str m)]) ∧
    (∀ m, env.getSettings = Except.error m →
      handleMessage env "getSettings" = Json.obj [("error", Json.str m)]) ∧
    (∀ m, env.updateSettings = Except.error m →
      handleMessage env "updateSettings" = Json.obj [("error", Json.str m)]) ∧
    (∀ m, env.getConversationHistory = Except.error m →
      handleMessage env "getConversationHistory" = Json.obj [("error", Json.str m)]) ∧
    (∀ m, env.clearConversationHistory = Except.error m →
      handleMessage env "clearConversationHistory" = Json.obj [("error", Json.str m)]) := by
  constructor
  · intro h
    simp only [knownActions, List.mem_cons, List.mem_singleton, not_or] at h
    obtain ⟨h1, h2, h3, h4, h5, h6, h7, h8, h9⟩ := h
    simp [handleMessage, dispatchMessage, h1, h2, h3, h4, h5, h6, h7, h8, h9]
  · refine ⟨?_, ?_, ?_, ?_, ?_, ?_, ?_, ?_⟩ <;>
      exact fun m hm => by simp [handleMessage, dispatchMessage, hm]

/-- An environment in which every awaited handler rejects. -/
def rejectingEnv : RouterEnv :=
  { checkBackendConnection := Except.error "boom"
    processVideo := Except.error "boom"
    askQuestion := Except.error "boom"
    getVideoInfo := Except.error "boom"
    togglePanel := Json.obj [("success", Json.bool true)]
    getSettings := Except.error "boom"
    updateSettings := Except.error "boom"
    getConversationHistory := Except.error "boom"
    clearConversationHistory := Except.error "boom" }

theorem c5_unknown_action_and_catch_witness :
    ("frobnicate" ∉ knownActions) ∧
    handleMessage rejectingEnv "frobnicate" = Json.obj [("error", Json.str "Unknown action")] ∧
    handleMessage rejectingEnv "updateSettings" = Json.obj [("error", Json.str "boom")] := by
  refine ⟨by decide, ?_, ?_⟩
  · exact (c5_unknown_action_and_catch rejectingEnv "frobnicate").1 (by decide)
  · exact (c5_unknown_action_and_catch rejectingEnv "updateSettings").2.2.2.2.2.2.1 "boom" rfl

/-! ## Settings writes (background.js `updateSettings`) -/

/-- The slice of an `updateSettings` payload that drives control flow:
the `backendUrl` property, if present. -/
structure SettingsPayload where
  backendUrl : Option String
deriving DecidableEq

/-- JS truthiness of `settings.backendUrl`: absent or empty is falsy. -/
def backendUrlTruthy (s : SettingsPayload) : Bool :=
  match s.backendUrl with
  | some u => !u.isEmpty
  | none => false

/-- Primitive steps observable during one `updateSettings` call. -/
inductive BgStep where
  | storageSet
  | healthCheck
  | respondSuccess
deriving DecidableEq

/-- Coordinator-local state touched by `updateSettings`. -/
structure BgState where
  backendUrl : String
  isBackendConnected : Bool
deriving DecidableEq

/-- Environment for the reachability re-check triggered by a settings
write: the outcome `GET /health` would report. -/
structure HealthEnv where
  healthOk : Bool
deriving DecidableEq

/-- `updateSettings` followed by the `sendResponse({success: true})` of its
`handleMessage` arm: the `chrome.storage.sync.set` callback updates the
local backend URL and awaits `checkBackendConnection` when the payload has
a truthy `backendUrl`, and only then resolves; the response value is
`{success: true}` in every case. -/
def updateSettings (st : BgState) (s : SettingsPayload) (env : HealthEnv) :
    BgState × List BgStep × Json :=
  let st1 := st
  if backendUrlTruthy s then
    let u := s.backendUrl.getD st.backendUrl
    let st2 := { st1 with backendUrl := u }
    let st3 := { st2 with isBackendConnected := env.healthOk }
    (st3, [BgStep.storageSet, BgStep.healthCheck, BgStep.respondSuccess],
      Json.obj [("success", Json.bool true)])
  else
    (st1, [BgStep.storageSet, BgStep.respondSuccess], Json.obj [("success", Json.bool true)])

/-- A default coordinator state. -/
def initBgState : BgState := { backendUrl := "http://localhost:8000", isBackendConnected := false }

/-- C8: the claim that every `updateSettings` request triggers a
reachability re-check is false: the re-check is guarded by
`if (settings.backendUrl)`, so a write that does not include a (truthy)
`backendUrl` key performs no health check at all. -/
theorem c8_counterexample :
    BgStep.healthCheck ∉ (updateSettings initBgState { backendUrl := none } { healthOk := true }).2.1 ∧
    (updateSettings initBgState { backendUrl := none } { healthOk := true }).2.2
      = Json.obj [("success", Json.bool true)] := by
  constructor
  · have h : (updateSettings initBgState { backendUrl := none } { healthOk := true }).2.1
        = [BgStep.storageSet, BgStep.respondSuccess] := rfl
    rw [h]
    decide
  · rfl

/-- C8 amended: the reachability re-check runs exactly when the written
settings carry a truthy `backendUrl`; the `{success: true}` response never
depends on the check's outcome, but when the check runs, the response is
resolved only after it completes (the resolve step is last in the trace),
so the check is awaited rather than fire-and-forget. -/
theorem c8_amended_conditional_check (st : BgState) (s : SettingsPayload)
    (env env' : HealthEnv) :
    (BgStep.healthCheck ∈ (updateSettings st s env).2.1 ↔ backendUrlTruthy s = true) ∧
    (updateSettings st s env).2.2 = Json.obj [("success", Json.bool true)] ∧
    (updateSettings st s env).2.2 = (updateSettings st s env').2.2 ∧
    (updateSettings st s env).2.1.getLast? = some BgStep.respondSuccess := by
  by_cases h : backendUrlTruthy s
  · refine ⟨?_, ?_, ?_, ?_⟩ <;> simp [updateSettings, h]
  · simp only [Bool.not_eq_true] at h
    refine ⟨?_, ?_, ?_, ?_⟩ <;> simp [updateSettings, h]

/-! ## Conversation persistence (content.js localStorage, background.js chrome.storage.local) -/

/-- One persisted conversation turn. -/
structure ConvEntry where
  question : String
  answer : String
  timestamp : String
deriving DecidableEq

def encodeEntry (e : ConvEntry) : Json :=
  Json.obj [("question", Json.str e.question), ("answer", Json.str e.answer),
    ("timestamp", Json.str e.timestamp)]

def encodeHistory (h : List ConvEntry) : Json := Json.arr (h.map encodeEntry)

def decodeEntry (j : Json) : Option ConvEntry :=
  match getField j "question", getField j "answer", getField j "timestamp" with
  | some (Json.str q), some (Json.str a), some (Json.str t) =>
    some { question := q, answer := a, timestamp := t }
  | _, _, _ => none

def decodeEntries : List Json → Option (List ConvEntry)
  | [] => some []
  | j :: js =>
    match decodeEntry j, decodeEntries js with
    | some e, some es => some (e :: es)
    | _, _ => none

/-- Reading a stored history value back into entries; a value that is not
an entry array corresponds to `JSON.parse` output the restore loop cannot
use (the load path catches and keeps the previous history). -/
def decodeHistory : Json → Option (List ConvEntry)
  | Json.arr xs => decodeEntries xs
  | _ => none

theorem decodeEntry_encodeEntry (e : ConvEntry) : decodeEntry (encodeEntry e) = some e := rfl

theorem decodeHistory_encodeHistory (h : List ConvEntry) :
    decodeHistory (encodeHistory h) = some h := by
  induction h with
  | nil => rfl
  | cons e es ih =>
    simp only [encodeHistory, List.map_cons, decodeHistory, decodeEntries,
      decodeEntry_encodeEntry]
    simp only [encodeHistory, decodeHistory] at ih
    rw [ih]

/-- The two storage areas visible to this extension: the coordinator's
`chrome.storage.local` and the page's `localStorage`, each a keyed map of
JSON-serialisable values. -/
structure StoreWorld where
  chromeLocal : String → Option Json
  pageLocal : String → Option Json

def setKey (m : String → Option Json) (k : String) (v : Json) : String → Option Json :=
  fun k' => if k' = k then some v else m k'

def removeKey (m : String → Option Json) (k : String) : String → Option Json :=
  fun k' => if k' = k then none else m k'

/-- Key used by the coordinator's conversation-history handlers. -/
def coordKey (videoId : String) : String := "conversation_" ++ videoId

/-- Key used by the content script's conversation persistence. -/
def contentKey (videoId : String) : String := "rag_conversation_" ++ videoId

/-- In-memory conversation state of one content-script instance. -/
structure ContentState where
  currentVideoId : String
  conversationHistory : List ConvEntry
deriving DecidableEq

/-- `saveConversationHistory`: writes the full in-memory history for the
current video to `localStorage` under `rag_conversation_<videoId>`. -/
def saveConversationHistory (w : StoreWorld) (st : ContentState) : StoreWorld :=
  { w with pageLocal :=
      setKey w.pageLocal (contentKey st.currentVideoId) (encodeHistory st.conversationHistory) }

/-- `loadConversationHistory`: reads `rag_conversation_<videoId>` from
`localStorage`; a missing key or unusable parse keeps the current history. -/
def loadConversationHistory (w : StoreWorld) (st : ContentState) : ContentState :=
  match w.pageLocal (contentKey st.currentVideoId) with
  | none => st
  | some j =>
    match decodeHistory j with
    | some h => { st with conversationHistory := h }
    | none => st

/-- One turn appended by `sendMessage`: `conversationHistory.push(entry)`
followed by `saveConversationHistory()`. -/
def appendTurn (w : StoreWorld) (st : ContentState) (e : ConvEntry) :
    StoreWorld × ContentState :=
  let st' := { st with conversationHistory := st.conversationHistory ++ [e] }
  (saveConversationHistory w st', st')

/-- JS falsiness of a stored value, for the `result[key] || []` default;
zero numerals cover the numeric-zero case for the numerals that occur. -/
def jsFalsy : Json → Bool
  | Json.null => true
  | Json.bool b => !b
  | Json.str s => s.isEmpty
  | Json.num raw => raw == "0" || raw == "-0" || raw == "0.0"
  | _ => false

/-- The coordinator's `getConversationHistory`: reads
`conversation_<videoId>` from `chrome.storage.local`, defaulting to `[]`. -/
def getConversationHistory (w : StoreWorld) (videoId : String) : Json :=
  let stored :=
    match w.chromeLocal (coordKey videoId) with
    | some j => if jsFalsy j then Json.arr [] else j
    | none => Json.arr []
  Json.obj [("success", Json.bool true), ("data", stored)]

/-- The coordinator's `clearConversationHistory`: removes
`conversation_<videoId>` from `chrome.storage.local`. -/
def clearConversationHistory (w : StoreWorld) (videoId : String) : StoreWorld :=
  { w with chromeLocal := removeKey w.chromeLocal (coordKey videoId) }

theorem string_length_append (s t : String) : (s ++ t).length = s.length + t.length := by
  have h := congrArg List.length (String.data_append s t)
  rw [List.length_append] at h
  exact h

theorem appendTurn_fold_world (es : List ConvEntry) :
    ∀ (w : StoreWorld) (st : ContentState), es ≠ [] →
      ((es.foldl (fun p e => appendTurn p.1 p.2 e) (w, st)).1).pageLocal
          (contentKey st.currentVideoId)
        = some (encodeHistory (st.conversationHistory ++ es)) := by
  induction es with
  | nil => intro w st h; exact absurd rfl h
  | cons e es ih =>
    intro w st _
    cases es with
    | nil =>
      simp [appendTurn, saveConversationHistory, setKey]
    | cons e2 es2 =>
      rw [List.foldl_cons]
      have h2 := ih (appendTurn w st e).1 (appendTurn w st e).2 (List.cons_ne_nil e2 es2)
      simpa [appendTurn, List.append_assoc] using h2

/-- C6: round trip of the conversation store.  Appending a non-empty
sequence of turns from a fresh content-script session and then loading the
same video's history returns exactly the appended entries in order, in any
starting world; and clearing a video's history through the coordinator and
then loading it through the coordinator returns the empty sequence. -/
theorem c6_append_load_round_trip (w : StoreWorld) (vid : String) (es : List ConvEntry)
    (hne : es ≠ []) :
    (loadConversationHistory
        (es.foldl (fun p e => appendTurn p.1 p.2 e)
          (w, { currentVideoId := vid, conversationHistory := [] })).1
        { currentVideoId := vid, conversationHistory := [] }).conversationHistory = es ∧
    (∀ (w' : StoreWorld) (vid' : String),
      getConversationHistory (clearConversationHistory w' vid') vid'
        = Json.obj [("success", Json.bool true), ("data", Json.arr [])]) := by
  constructor
  · have hworld := appendTurn_fold_world es w
      { currentVideoId := vid, conversationHistory := [] } hne
    simp only [List.nil_append] at hworld
    simp [loadConversationHistory, hworld, decodeHistory_encodeHistory]
  · intro w' vid'
    simp [getConversationHistory, clearConversationHistory, removeKey]

/-- A world with both storage areas empty. -/
def emptyWorld : StoreWorld := { chromeLocal := fun _ => none, pageLocal := fun _ => none }

theorem c6_append_load_round_trip_witness :
    ([({ question := "What is this about?", answer := "A music video.",
         timestamp := "2026-10-11T00:00:00Z" } : ConvEntry)] ≠ []) ∧
    (loadConversationHistory
        (([({ question := "What is this about?", answer := "A music video.",
              timestamp := "2026-10-11T00:00:00Z" } : ConvEntry)]).foldl
          (fun p e => appendTurn p.1 p.2 e)
          (emptyWorld, { currentVideoId := "abc123", conversationHistory := [] })).1
        { currentVideoId := "abc123", conversationHistory := [] }).conversationHistory
      = [({ question := "What is this about?", answer := "A music video.",
            timestamp := "2026-10-11T00:00:00Z" } : ConvEntry)] ∧
    getConversationHistory (clearConversationHistory emptyWorld "abc123") "abc123"
      = Json.obj [("success", Json.bool true), ("data", Json.arr [])] := by
  have h := c6_append_load_round_trip emptyWorld "abc123"
    [({ question := "What is this about?", answer := "A music video.",
        timestamp := "2026-10-11T00:00:00Z" } : ConvEntry)] (List.cons_ne_nil _ _)
  exact ⟨List.cons_ne_nil _ _, h.1, h.2 emptyWorld "abc123"⟩

/-- C9: the coordinator's conversation operations and the content script's
persistence act on disjoint state: their keys differ for every video
identifier (even inside a single namespace), the coordinator's clear never
changes the page-local store, appends by the content script are invisible
to the coordinator's read, and the coordinator's clear never changes what
the content script loads. -/
theorem c9_disjoint_conversation_stores :
    (∀ v : String, coordKey v ≠ contentKey v) ∧
    (∀ (w : StoreWorld) (v : String), (clearConversationHistory w v).pageLocal = w.pageLocal) ∧
    (∀ (w : StoreWorld) (st : ContentState) (e : ConvEntry) (v : String),
      getConversationHistory (appendTurn w st e).1 v = getConversationHistory w v) ∧
    (∀ (w : StoreWorld) (st : ContentState) (v : String),
      loadConversationHistory (clearConversationHistory w v) st
        = loadConversationHistory w st) := by
  refine ⟨?_, fun w v => rfl, fun w st e v => rfl, fun w st v => rfl⟩
  intro v h
  have h2 := congrArg String.length h
  simp only [coordKey, contentKey] at h2
  rw [string_length_append, string_length_append] at h2
  have e1 : ("conversation_" : String).length = 13 := rfl
  have e2 : ("rag_conversation_" : String).length = 17 := rfl
  rw [e1, e2] at h2
  omega
